import Mathlib

/-!
Verification of the ghost-tripper 1LMG container codec (src/decode.py and
src/encode.py) against its specification.

The container bytes are modelled as `List Nat` (each entry one byte).  The
message-level transcoder (`lib/message`), the command table (`lib/tables`)
and the LZ11 codec (`lib/lz11`) are not part of the sources under
verification, so they appear as parameters: `msgDecode` for
`Message.decode`, `strEncode`/`msgEncode` for label / payload encoding and
`decompress` for `lz11_decompress` (returning `none` when the Python call
would raise).  The stop-marker token `commands[0xfffe]` is the parameter
`stopTok`.  File writes are modelled by the `Option` component of each
operation's result: `none` means the Python function returned before any
write to the save path.
-/

namespace GhostTripper

/-- The ASCII bytes of the magic literal `b'1LMG'`. -/
def magic : List Nat := [49, 76, 77, 71]

/-- Byte `i` of a buffer; bytes past the end read as `0`. -/
def byteAt (l : List Nat) (i : Nat) : Nat := l.getD i 0

/-- The Python slice `data[off:off+4]`. -/
def take4 (l : List Nat) (off : Nat) : List Nat := (l.drop off).take 4

/-- Little-endian 32-bit read, `unpack('<L', data[off:off+4])`. -/
def read32 (l : List Nat) (off : Nat) : Nat :=
  byteAt l off + 256 * byteAt l (off + 1) + 65536 * byteAt l (off + 2) +
    16777216 * byteAt l (off + 3)

/-- Little-endian 32-bit write, `pack('<L', x)`. -/
def pack32 (x : Nat) : List Nat :=
  [x % 256, x / 256 % 256, x / 65536 % 256, x / 16777216 % 256]

/-- Zero-pad a buffer to a 4-byte boundary (encode.py lines 71-77). -/
def pad4 (l : List Nat) : List Nat :=
  if l.length % 4 = 0 then l else l ++ List.replicate (4 - l.length % 4) 0

/-- One decoded message, mirroring the `Message` objects built by
`decode_1LMG`: the two pointer-table words, the derived byte length, the
label bytes and the decoded text. -/
structure DMsg where
  labelOff : Nat
  pointer : Nat
  length : Int
  label : List Nat
  decoded : List Char
deriving DecidableEq, Repr

instance : Inhabited DMsg := ⟨⟨0, 0, 0, [], []⟩⟩

/-- Modelled from the spec (4.1 step 5): `Message.get_label` from
`lib/message` (not in src) reads the null-terminated label starting at
`labels_position + label_offset`. -/
def readLabel (data : List Nat) (off : Nat) : List Nat :=
  (data.drop off).takeWhile (fun b => b ≠ 0)

/-- The Python slice `s[-k:]`: the last `k` characters (all of `s` when it
is shorter). -/
def lastChars (s : List Char) (k : Nat) : List Char := s.drop (s.length - k)

/-- decode.py lines 96-98: when `string_length == 4` and the last message's
decoded text ends in the stop marker followed by the literal `'0'`, drop
that trailing character. -/
def stripTrailingPad (stopTok : List Char) (string_length : Nat)
    (msgs : List DMsg) : List DMsg :=
  if string_length = 4 then
    match msgs.getLast? with
    | some last =>
      if lastChars last.decoded (1 + stopTok.length) = stopTok ++ ['0'] then
        msgs.dropLast ++ [{ last with decoded := last.decoded.dropLast }]
      else msgs
    | none => msgs
  else msgs

/-- decode.py line 50: the data-section length header field. -/
def data_length (data : List Nat) : Nat := read32 data 8

/-- decode.py line 51: the string-section length header field. -/
def string_length (data : List Nat) : Nat := read32 data 12

/-- decode.py line 53: `string_position = 0x34 + data_length`. -/
def string_position (data : List Nat) : Nat := 0x34 + data_length data

/-- decode.py line 55: the pointer table follows the string section. -/
def pointers_position (data : List Nat) : Nat :=
  string_position data + string_length data

/-- decode.py line 59: the message count, first word of the pointer
table. -/
def message_count (data : List Nat) : Nat :=
  read32 data (pointers_position data)

/-- decode.py lines 74-81: message m's data pointer, the second word of
its pointer-table pair. -/
def pointerAt (data : List Nat) (m : Nat) : Nat :=
  read32 data (pointers_position data + 8 + 8 * m)

/-- decode.py lines 74-81: message m's label offset, the first word of
its pointer-table pair. -/
def labelOffAt (data : List Nat) (m : Nat) : Nat :=
  read32 data (pointers_position data + 4 + 8 * m)

/-- decode.py lines 83-85: the derived message length — the delta to the
next pointer, or for the last message the distance to the string
section. -/
def lengthAt (data : List Nat) (m : Nat) : Int :=
  if m + 1 < message_count data then
    (pointerAt data (m + 1) : Int) - pointerAt data m
  else (string_position data : Int) - pointerAt data m

/-- decode.py lines 66-67: the labels follow the pointer table. -/
def labels_position (data : List Nat) : Nat :=
  pointers_position data + (4 + message_count data * 8)

/-- decode.py lines 46-113: parsing of an (already decompressed) container.
Returns the Python return code together with the message list written to
the save path (`none` when the function returns before writing).  Message
payload extraction (`Message.decode` reading `length` bytes at `pointer`)
is modelled from the spec, 4.1 step 5, with the transcoder itself the
parameter `msgDecode`. -/
def parse1LMG (msgDecode : List Nat → List Char) (stopTok : List Char)
    (data : List Nat) : Int × Option (List DMsg) :=
  if message_count data = 0 then (-2, none)
  else
    let msgs := (List.range (message_count data)).map (fun m =>
      { labelOff := labelOffAt data m
        pointer := pointerAt data m
        length := lengthAt data m
        label := readLabel data (labels_position data + labelOffAt data m)
        decoded := msgDecode
          ((data.drop (pointerAt data m)).take (lengthAt data m).toNat) })
    (if string_length data = 4 then 0 else 1,
      some (stripTrailingPad stopTok (string_length data) msgs))

/-- decode.py `decode_1LMG`: magic validation and decompression dispatch
(lines 31-44) followed by container parsing. -/
def decode_1LMG (decompress : List Nat → Option (List Nat))
    (msgDecode : List Nat → List Char) (stopTok : List Char)
    (compress : Nat) (data : List Nat) : Int × Option (List DMsg) :=
  if take4 data 0 ≠ magic then
    if take4 data 5 = magic then
      if compress > 1 then
        match decompress data with
        | some d => parse1LMG msgDecode stopTok d
        | none => (-3, none)
      else (-1, none)
    else (-1, none)
  else parse1LMG msgDecode stopTok data

/-- One message on the encode path, as built by encode.py lines 38-48:
its label's UTF-8 bytes (`message.label.encode()`) and the result of
`message.encode()` — either the encoded payload bytes or the error string
(the Python dual-typed return). -/
structure EMsg where
  label : List Nat
  payload : Except (List Char) (List Nat)

/-- The three growing buffers of encode.py lines 51-69. -/
structure BuildState where
  table : List Nat
  dataBuf : List Nat
  labels : List Nat

/-- encode.py lines 62-69: for each message append its pointer pair (label
buffer length, data buffer length + 0x34) to the table, then its payload to
the data buffer and its null-terminated label to the label buffer; a string
result from `message.encode()` aborts the build. -/
def buildLoop : List EMsg → BuildState → Except (List Char) BuildState
  | [], st => Except.ok st
  | m :: rest, st =>
    let table' := st.table ++ pack32 st.labels.length ++
      pack32 (st.dataBuf.length + 0x34)
    match m.payload with
    | Except.error e => Except.error e
    | Except.ok p =>
      buildLoop rest ⟨table', st.dataBuf ++ p, st.labels ++ m.label ++ [0]⟩

/-- encode.py line 53: the placeholder string section `b'*' + bytes(3)`. -/
def stringsSection : List Nat := [42, 0, 0, 0]

/-- encode.py lines 80-84: magic, four blank mystery bytes,
`pack('<LLL', data_length, strings_length, table_length)`, 32 zero bytes. -/
def buildHeader (dataLen stringsLen tableLen : Nat) : List Nat :=
  magic ++ List.replicate 4 0 ++ pack32 dataLen ++ pack32 stringsLen ++
    pack32 tableLen ++ List.replicate 32 0

/-- encode.py lines 51-91: build the container bytes from the message list,
or return the first message-encode error string. -/
def buildContainerE (msgs : List EMsg) : Except (List Char) (List Nat) :=
  match buildLoop msgs ⟨pack32 msgs.length, [], [42, 0]⟩ with
  | Except.error e => Except.error e
  | Except.ok st =>
    let dataP := pad4 st.dataBuf
    let labelsP := pad4 st.labels
    Except.ok
      (buildHeader dataP.length stringsSection.length
          (st.table.length + labelsP.length) ++
        dataP ++ stringsSection ++ st.table ++ labelsP)

/-- The build phase's Python return code and written bytes: `(-3, none)` on
a message-encode error (encode.py lines 64-67, before the output file is
opened), `(0, some bytes)` on success.  The optional LZ11 compression of
the written bytes (line 96) is outside the sources under src/. -/
def encodeContainer (msgs : List EMsg) : Int × Option (List Nat) :=
  match buildContainerE msgs with
  | Except.error _ => (-3, none)
  | Except.ok out => (0, some out)

/-- Python `str.split('===\n')`: split on non-overlapping occurrences of
the four-character separator, leftmost first. -/
def splitSep : List Char → List (List Char)
  | '=' :: '=' :: '=' :: '\n' :: rest => [] :: splitSep rest
  | c :: rest =>
    match splitSep rest with
    | [] => [[c]]
    | g :: gs => (c :: g) :: gs
  | [] => [[]]

/-- encode.py line 36, `s[:s.rfind('\x0a')]`: cut from the last newline on;
with no newline, `rfind` is `-1` and the Python slice drops the final
character. -/
def cutAfterLastNL (s : List Char) : List Char :=
  if s.contains '\n' then
    ((s.reverse.dropWhile (fun c => c ≠ '\n')).drop 1).reverse
  else s.dropLast

/-- encode.py lines 35-36: the cut is applied to every segment but the
last (`for i in range(len(data)-1)`). -/
def cutSegments : List (List Char) → List (List Char)
  | [] => []
  | [s] => [s]
  | s :: rest => cutAfterLastNL s :: cutSegments rest

/-- encode.py line 40, `s.split(" Position")[0]`: the prefix before the
first occurrence of the marker (all of `s` when absent). -/
def takeBeforePosition : List Char → List Char
  | ' ' :: 'P' :: 'o' :: 's' :: 'i' :: 't' :: 'i' :: 'o' :: 'n' :: _ => []
  | c :: rest => c :: takeBeforePosition rest
  | [] => []

/-- encode.py line 39, `range(0, len(data), 2)`: consecutive
(label, text) pairs. -/
def pairUp {α : Type} : List α → List (α × α)
  | a :: b :: rest => (a, b) :: pairUp rest
  | _ => []

/-- encode.py lines 40-48: one message from a (label, text) segment pair,
with the positional annotation stripped from the label. -/
def mkMessage (strEncode : List Char → List Nat)
    (msgEncode : List Char → Except (List Char) (List Nat))
    (lbl txt : List Char) : EMsg :=
  { label := strEncode (takeBeforePosition lbl), payload := msgEncode txt }

/-- encode.py `encode_1LMG` on the loaded text: split on the separators
dropping the leading segment (line 31), fail with `(-1, none)` on an odd
segment count (lines 32-34), otherwise cut the trailing newlines and build
the container from the (label, text) pairs. -/
def encode_1LMG (strEncode : List Char → List Nat)
    (msgEncode : List Char → Except (List Char) (List Nat))
    (text : List Char) : Int × Option (List Nat) :=
  let segs := (splitSep text).drop 1
  if segs.length % 2 ≠ 0 then (-1, none)
  else
    encodeContainer ((pairUp (cutSegments segs)).map
      (fun lt => mkMessage strEncode msgEncode lt.1 lt.2))

/-- A decompressor instance that always fails (the Python call raises). -/
def dec0 : List Nat → Option (List Nat) := fun _ => none

/-- A message-transcoder instance decoding every payload to empty text. -/
def md0 : List Nat → List Char := fun _ => []

/-- A concrete stop-marker token, the spec's `[STOP]`. -/
def tok0 : List Char := ['[', 'S', 'T', 'O', 'P', ']']

/-- A concrete label encoder (identity on ASCII code points). -/
def se0 : List Char → List Nat := fun s => s.map Char.toNat

/-- A message-encoder instance that encodes every text to no bytes. -/
def me0 : List Char → Except (List Char) (List Nat) := fun _ => Except.ok []

/-- A concrete well-formed container: mystery field 1, data length 22,
string length 4, three messages with data pointers `0x34`, `0x34+10`,
`0x34+10+5` and string-section start `0x34+10+5+7`. -/
def exC1 : List Nat :=
  magic ++ pack32 1 ++ pack32 22 ++ pack32 4 ++ pack32 36 ++
    List.replicate 32 0 ++
    List.replicate 22 9 ++
    [42, 0, 0, 0] ++
    pack32 3 ++ pack32 2 ++ pack32 52 ++ pack32 4 ++ pack32 62 ++
    pack32 6 ++ pack32 67 ++
    [42, 0, 65, 0, 66, 0, 67, 0]

/-- A concrete input with the magic at offset 5 but not at offset 0
(an LZ11-compressed container). -/
def exCompressed : List Nat := [0, 0, 0, 0, 0] ++ magic ++ List.replicate 20 0

/-- A concrete input with the magic at neither offset 0 nor offset 5. -/
def exNoMagic : List Nat := List.replicate 16 9

/-- A concrete syntactically valid container whose message count is 0. -/
def exEmpty : List Nat := magic ++ List.replicate 52 0

/-- A concrete two-message encode input: labels `A` and `BC`, payloads
of three bytes and one byte. -/
def exLps : List (List Nat × List Nat) := [([65], [1, 2, 3]), ([66, 67], [4])]

/-- Wrap a list of (label bytes, payload bytes) pairs as messages whose
encode succeeded. -/
def okMsgs (lps : List (List Nat × List Nat)) : List EMsg :=
  lps.map (fun lp => { label := lp.1, payload := Except.ok lp.2 })

/-- Modelled from the spec (4.1 encode step 1): the pointer table records,
for each message in order, the label-buffer offset before its label append
and the data-buffer offset before its payload append plus the header
size 0x34. -/
def specTable (labelOff dataOff : Nat) :
    List (List Nat × List Nat) → List Nat
  | [] => []
  | lp :: rest =>
    pack32 labelOff ++ pack32 (dataOff + 0x34) ++
      specTable (labelOff + lp.1.length + 1) (dataOff + lp.2.length) rest

/-- Modelled from the spec (4.1 encode steps 1-4): the expected container —
header, zero-padded data buffer (the concatenated payloads), the 4-byte
placeholder string section, the pointer table (message count then the
offset pairs), and the zero-padded label buffer (two placeholder bytes then
the null-terminated labels). -/
def specContainer (lps : List (List Nat × List Nat)) : List Nat :=
  let dataP := pad4 ((lps.map (fun lp => lp.2)).flatten)
  let labelsP := pad4 ([42, 0] ++ (lps.map (fun lp => lp.1 ++ [0])).flatten)
  let table := pack32 lps.length ++ specTable 2 0 lps
  buildHeader dataP.length 4 (table.length + labelsP.length) ++
    dataP ++ stringsSection ++ table ++ labelsP

theorem byteAt_cons_zero (a : Nat) (l : List Nat) : byteAt (a :: l) 0 = a :=
  rfl

theorem byteAt_cons_succ (a : Nat) (l : List Nat) (i : Nat) :
    byteAt (a :: l) (i + 1) = byteAt l i := rfl

theorem byteAt_append_right (l1 l2 : List Nat) (i : Nat) :
    byteAt (l1 ++ l2) (l1.length + i) = byteAt l2 i := by
  unfold byteAt
  rw [List.getD_append_right _ _ _ _ (Nat.le_add_right _ _)]
  simp

theorem read32_append_right (l1 l2 : List Nat) (i : Nat) :
    read32 (l1 ++ l2) (l1.length + i) = read32 l2 i := by
  simp only [read32, Nat.add_assoc, byteAt_append_right]

theorem read32_cons4 (a b c d : Nat) (l : List Nat) :
    read32 (a :: b :: c :: d :: l) 0 =
      a + 256 * b + 65536 * c + 16777216 * d := rfl

theorem read32_pack32 (x : Nat) (l : List Nat) :
    read32 (pack32 x ++ l) 0 = x % 4294967296 := by
  simp only [pack32, List.cons_append, List.nil_append, read32_cons4]
  omega

theorem buildHeader_length (a b c : Nat) : (buildHeader a b c).length = 52 :=
  by simp [buildHeader, pack32, magic]

theorem specTable_len (lps : List (List Nat × List Nat)) :
    ∀ loff doff, (specTable loff doff lps).length = 8 * lps.length := by
  induction lps with
  | nil => intro loff doff; rfl
  | cons lp rest ih =>
    intro loff doff
    simp [specTable, pack32, ih]
    ring

theorem buildLoop_okMsgs (lps : List (List Nat × List Nat)) :
    ∀ t d l : List Nat,
      buildLoop (okMsgs lps) ⟨t, d, l⟩ =
        Except.ok ⟨t ++ specTable l.length d.length lps,
          d ++ (lps.map (fun lp => lp.2)).flatten,
          l ++ (lps.map (fun lp => lp.1 ++ [0])).flatten⟩ := by
  induction lps with
  | nil => intro t d l; simp [okMsgs, buildLoop, specTable]
  | cons lp rest ih =>
    intro t d l
    have hc : okMsgs (lp :: rest) =
        ⟨lp.1, Except.ok lp.2⟩ :: okMsgs rest := rfl
    rw [hc]
    simp only [buildLoop, specTable, List.flatten_cons, List.map_cons]
    rw [ih]
    congr 2 <;> simp [List.append_assoc, List.length_append, Nat.add_assoc]

theorem buildContainerE_okMsgs (lps : List (List Nat × List Nat)) :
    buildContainerE (okMsgs lps) = Except.ok (specContainer lps) := by
  have hlen : (okMsgs lps).length = lps.length := List.length_map _ _
  simp only [buildContainerE, hlen, buildLoop_okMsgs, specContainer,
    stringsSection, List.nil_append]
  rfl

theorem buildLoop_append (a b : List EMsg) :
    ∀ st, buildLoop (a ++ b) st =
      match buildLoop a st with
      | Except.ok st2 => buildLoop b st2
      | Except.error e => Except.error e := by
  induction a with
  | nil => intro st; simp [buildLoop]
  | cons m rest ih =>
    intro st
    simp only [List.cons_append, buildLoop]
    cases h : m.payload with
    | error e => simp
    | ok p =>
      simp only [List.append_eq]
      rw [ih]

theorem getLast?_eq_some_ex {α : Type} {l : List α} {a : α}
    (h : l.getLast? = some a) : ∃ t, l = t ++ [a] := by
  induction l with
  | nil => simp at h
  | cons x xs ih =>
    cases xs with
    | nil =>
      simp [List.getLast?] at h
      exact ⟨[], by simp [h]⟩
    | cons y ys =>
      rw [List.getLast?_cons_cons] at h
      obtain ⟨t, ht⟩ := ih h
      exact ⟨x :: t, by simp [ht]⟩

theorem stripTrailingPad_map_length (tok : List Char) (sl : Nat)
    (msgs : List DMsg) :
    (stripTrailingPad tok sl msgs).map DMsg.length = msgs.map DMsg.length :=
  by
  unfold stripTrailingPad
  split
  · split
    · next last heq =>
      split
      · obtain ⟨t, rfl⟩ := getLast?_eq_some_ex heq
        simp [List.dropLast_concat]
      · rfl
    · rfl
  · rfl

theorem take4_out_0 (a b c : Nat) (r1 r2 r3 r4 : List Nat) :
    take4 (buildHeader a b c ++ r1 ++ r2 ++ r3 ++ r4) 0 = magic := rfl

theorem take4_out_4 (a b c : Nat) (r1 r2 r3 r4 : List Nat) :
    take4 (buildHeader a b c ++ r1 ++ r2 ++ r3 ++ r4) 4 = [0, 0, 0, 0] :=
  rfl

theorem read32_out_4 (a b c : Nat) (r1 r2 r3 r4 : List Nat) :
    read32 (buildHeader a b c ++ r1 ++ r2 ++ r3 ++ r4) 4 = 0 := rfl

theorem read32_out_8 (a b c : Nat) (r1 r2 r3 r4 : List Nat) :
    read32 (buildHeader a b c ++ r1 ++ r2 ++ r3 ++ r4) 8 =
      a % 4294967296 := by
  have h : read32 (buildHeader a b c ++ r1 ++ r2 ++ r3 ++ r4) 8 =
      a % 256 + 256 * (a / 256 % 256) + 65536 * (a / 65536 % 256) +
        16777216 * (a / 16777216 % 256) := rfl
  rw [h]; omega

theorem read32_out_12 (a b c : Nat) (r1 r2 r3 r4 : List Nat) :
    read32 (buildHeader a b c ++ r1 ++ r2 ++ r3 ++ r4) 12 =
      b % 4294967296 := by
  have h : read32 (buildHeader a b c ++ r1 ++ r2 ++ r3 ++ r4) 12 =
      b % 256 + 256 * (b / 256 % 256) + 65536 * (b / 65536 % 256) +
        16777216 * (b / 16777216 % 256) := rfl
  rw [h]; omega

theorem read32_out_16 (a b c : Nat) (r1 r2 r3 r4 : List Nat) :
    read32 (buildHeader a b c ++ r1 ++ r2 ++ r3 ++ r4) 16 =
      c % 4294967296 := by
  have h : read32 (buildHeader a b c ++ r1 ++ r2 ++ r3 ++ r4) 16 =
      c % 256 + 256 * (c / 256 % 256) + 65536 * (c / 65536 % 256) +
        16777216 * (c / 16777216 % 256) := rfl
  rw [h]; omega

/-- C2 (corrected): on a container whose mystery field is nonzero,
decoding and re-encoding does not preserve the field: the concrete
container `exC1` has mystery field 1 and decodes successfully, but
re-encoding its decoded messages yields a container whose mystery field
is 0. -/
theorem c2_mystery_not_preserved :
    read32 exC1 4 = 1 ∧
    (decode_1LMG dec0 md0 tok0 2 exC1).1 = 0 ∧
    read32 ((encodeContainer
      (((decode_1LMG dec0 md0 tok0 2 exC1).2.getD []).map
        (fun m => { label := m.label, payload := Except.ok [] }))).2.getD [])
      4 = 0 ∧
    ¬ read32 ((encodeContainer
      (((decode_1LMG dec0 md0 tok0 2 exC1).2.getD []).map
        (fun m => { label := m.label, payload := Except.ok [] }))).2.getD [])
      4 = read32 exC1 4 := by
  refine ⟨by decide, by decide, by decide, by decide⟩

/-- C2 (amended): the encoder writes the mystery field as four zero bytes
(encode.py line 82, "Write the mystery bytes as blank, for now"), so the
field of every successfully encoded container is 0 — a round-trip
preserves it only when the original field was zero. -/
theorem c2_mystery_zeroed (msgs : List EMsg) (out : List Nat)
    (h : buildContainerE msgs = Except.ok out) :
    take4 out 4 = [0, 0, 0, 0] ∧ read32 out 4 = 0 := by
  unfold buildContainerE at h
  revert h
  cases buildLoop msgs ⟨pack32 msgs.length, [], [42, 0]⟩ with
  | error e => intro h; simp at h
  | ok st =>
    intro h
    simp only [Except.ok.injEq] at h
    subst h
    exact ⟨take4_out_4 _ _ _ _ _ _ _, read32_out_4 _ _ _ _ _ _ _⟩

/-- C2 (amended) witness at the empty message list. -/
theorem c2_mystery_zeroed_witness :
    take4 (specContainer []) 4 = [0, 0, 0, 0] ∧
      read32 (specContainer []) 4 = 0 :=
  c2_mystery_zeroed (okMsgs []) (specContainer []) rfl

/-- C3 (corrected): the error codes do not distinguish all four failure
kinds pairwise — a compressed input decoded with compression disabled and
an input with no magic at offset 0 or 5 both return -1. -/
theorem c3_codes_collide :
    take4 exCompressed 0 ≠ magic ∧ take4 exCompressed 5 = magic ∧
    take4 exNoMagic 0 ≠ magic ∧ take4 exNoMagic 5 ≠ magic ∧
    (decode_1LMG dec0 md0 tok0 1 exCompressed).1 = -1 ∧
    (decode_1LMG dec0 md0 tok0 1 exNoMagic).1 = -1 ∧
    (decode_1LMG dec0 md0 tok0 1 exCompressed).1 =
      (decode_1LMG dec0 md0 tok0 1 exNoMagic).1 := by
  refine ⟨by decide, by decide, by decide, by decide, by decide, by decide,
    by decide⟩

/-- C3 (amended): decode distinguishes three of the four failure kinds:
format error and compressed-but-compression-disabled share the return
value -1, while empty-resource returns -2 and decompression failure
returns -3, and -1, -2, -3 are pairwise distinct. -/
theorem c3_return_codes (decompress : List Nat → Option (List Nat))
    (msgDecode : List Nat → List Char) (stopTok : List Char)
    (cA cB cC cD : List Nat) (compressA compressB compressC compressD : Nat)
    (hA0 : take4 cA 0 ≠ magic) (hA5 : take4 cA 5 = magic)
    (hAc : compressA ≤ 1)
    (hB0 : take4 cB 0 ≠ magic) (hB5 : take4 cB 5 ≠ magic)
    (hC0 : take4 cC 0 = magic)
    (hCn : message_count cC = 0)
    (hD0 : take4 cD 0 ≠ magic) (hD5 : take4 cD 5 = magic)
    (hDc : 1 < compressD) (hDf : decompress cD = none) :
    decode_1LMG decompress msgDecode stopTok compressA cA = (-1, none) ∧
    decode_1LMG decompress msgDecode stopTok compressB cB = (-1, none) ∧
    decode_1LMG decompress msgDecode stopTok compressC cC = (-2, none) ∧
    decode_1LMG decompress msgDecode stopTok compressD cD = (-3, none) ∧
    ((-1 : Int) ≠ -2 ∧ (-1 : Int) ≠ -3 ∧ (-2 : Int) ≠ -3) := by
  have hAc2 : ¬ compressA > 1 := by omega
  refine ⟨by simp [decode_1LMG, hA0, hA5, hAc2], ?_, ?_,
    by simp [decode_1LMG, hD0, hD5, hDc, hDf], by decide, by decide,
    by decide⟩
  · simp [decode_1LMG, hB0, hB5]
  · simp [decode_1LMG, hC0, parse1LMG, hCn]

/-- C3 (amended) witness at the four concrete inputs. -/
theorem c3_return_codes_witness :
    decode_1LMG dec0 md0 tok0 1 exCompressed = (-1, none) ∧
    decode_1LMG dec0 md0 tok0 1 exNoMagic = (-1, none) ∧
    decode_1LMG dec0 md0 tok0 2 exEmpty = (-2, none) ∧
    decode_1LMG dec0 md0 tok0 2 exCompressed = (-3, none) ∧
    ((-1 : Int) ≠ -2 ∧ (-1 : Int) ≠ -3 ∧ (-2 : Int) ≠ -3) :=
  c3_return_codes dec0 md0 tok0 exCompressed exNoMagic exEmpty exCompressed
    1 1 2 2 (by decide) (by decide) (by decide) (by decide) (by decide)
    (by decide) (by decide) (by decide) (by decide) (by decide) rfl

/-- C4: with no magic at offset 0, decode checks the magic at offset 5;
when it is there and decompression is enabled it invokes the decompressor,
continuing with the decompressed bytes on success and failing with -3 when
it raises; with the magic at neither offset it fails with -1, and the
result does not depend on the decompressor at all. -/
theorem c4_magic_dispatch (decompress decompress2 : List Nat → Option (List Nat))
    (msgDecode : List Nat → List Char) (stopTok : List Char)
    (compress : Nat) (data : List Nat)
    (h0 : take4 data 0 ≠ magic) :
    (take4 data 5 = magic → 1 < compress →
      (∀ d, decompress data = some d →
        decode_1LMG decompress msgDecode stopTok compress data =
          parse1LMG msgDecode stopTok d) ∧
      (decompress data = none →
        decode_1LMG decompress msgDecode stopTok compress data =
          (-3, none))) ∧
    (take4 data 5 ≠ magic →
      decode_1LMG decompress msgDecode stopTok compress data = (-1, none) ∧
      decode_1LMG decompress msgDecode stopTok compress data =
        decode_1LMG decompress2 msgDecode stopTok compress data) := by
  refine ⟨fun h5 hc => ⟨fun d hd => ?_, fun hn => ?_⟩,
    fun h5 => ⟨?_, ?_⟩⟩
  · simp [decode_1LMG, h0, h5, hc, hd]
  · simp [decode_1LMG, h0, h5, hc, hn]
  · simp [decode_1LMG, h0, h5]
  · simp [decode_1LMG, h0, h5]

/-- C4 witness: a decompressor returning the valid container `exC1`
continues with the decompressed bytes; a raising decompressor yields -3;
an input with the magic nowhere yields -1. -/
theorem c4_magic_dispatch_witness :
    decode_1LMG (fun _ => some exC1) md0 tok0 2 exCompressed =
      parse1LMG md0 tok0 exC1 ∧
    decode_1LMG dec0 md0 tok0 2 exCompressed = (-3, none) ∧
    decode_1LMG dec0 md0 tok0 2 exNoMagic = (-1, none) :=
  ⟨((c4_magic_dispatch (fun _ => some exC1) dec0 md0 tok0 2 exCompressed
      (by decide)).1 (by decide) (by decide)).1 exC1 rfl,
   ((c4_magic_dispatch dec0 dec0 md0 tok0 2 exCompressed
      (by decide)).1 (by decide) (by decide)).2 rfl,
   ((c4_magic_dispatch dec0 dec0 md0 tok0 2 exNoMagic
      (by decide)).2 (by decide)).1⟩

/-- C6: a syntactically valid container with message count zero fails with
the empty-resource code -2, distinct from the format-error code -1, before
anything is written to the save path. -/
theorem c6_empty_resource (decompress : List Nat → Option (List Nat))
    (msgDecode : List Nat → List Char) (stopTok : List Char)
    (compress : Nat) (data : List Nat)
    (hmagic : take4 data 0 = magic)
    (hcount : message_count data = 0) :
    decode_1LMG decompress msgDecode stopTok compress data = (-2, none) ∧
      (-2 : Int) ≠ -1 := by
  refine ⟨?_, by decide⟩
  simp [decode_1LMG, hmagic, parse1LMG, hcount]

/-- C6 witness at the concrete empty container. -/
theorem c6_empty_resource_witness :
    decode_1LMG dec0 md0 tok0 2 exEmpty = (-2, none) ∧ (-2 : Int) ≠ -1 :=
  c6_empty_resource dec0 md0 tok0 2 exEmpty (by decide) (by decide)

theorem strip_length (tok : List Char) (sl : Nat) (msgs : List DMsg) :
    (stripTrailingPad tok sl msgs).length = msgs.length := by
  have h := congrArg List.length (stripTrailingPad_map_length tok sl msgs)
  simpa using h

theorem strip_getElem_length (tok : List Char) (sl : Nat)
    (msgs : List DMsg) (i : Nat) :
    ((stripTrailingPad tok sl msgs)[i]?).map DMsg.length =
      (msgs[i]?).map DMsg.length := by
  have h : ((stripTrailingPad tok sl msgs).map DMsg.length)[i]? =
      (msgs.map DMsg.length)[i]? := by
    rw [stripTrailingPad_map_length]
  simpa [List.getElem?_map] using h

theorem parse1LMG_lengths (msgDecode : List Nat → List Char)
    (stopTok : List Char) (data : List Nat)
    (hn : message_count data ≠ 0) :
    ∃ msgs, (parse1LMG msgDecode stopTok data).2 = some msgs ∧
      msgs.length = message_count data ∧
      ∀ i mi, msgs[i]? = some mi → mi.length = lengthAt data i := by
  simp only [parse1LMG]
  rw [if_neg hn]
  refine ⟨_, rfl, ?_, ?_⟩
  · rw [strip_length]; simp
  · intro i mi hget
    have hi : i < message_count data := by
      have h3 : i < (stripTrailingPad stopTok (string_length data)
          ((List.range (message_count data)).map (fun m =>
            { labelOff := labelOffAt data m
              pointer := pointerAt data m
              length := lengthAt data m
              label := readLabel data (labels_position data + labelOffAt data m)
              decoded := msgDecode
                ((data.drop (pointerAt data m)).take
                  (lengthAt data m).toNat) }))).length := by
        by_contra hge
        rw [List.getElem?_eq_none (by omega)] at hget
        cases hget
      rw [strip_length] at h3
      simpa using h3
    have h2 := strip_getElem_length stopTok (string_length data)
      ((List.range (message_count data)).map (fun m =>
        { labelOff := labelOffAt data m
          pointer := pointerAt data m
          length := lengthAt data m
          label := readLabel data (labels_position data + labelOffAt data m)
          decoded := msgDecode
            ((data.drop (pointerAt data m)).take
              (lengthAt data m).toNat) })) i
    rw [hget, List.getElem?_map, List.getElem?_range hi] at h2
    simpa using h2

/-- C1: in a container with at least one message, the derived byte length
of every message but the last is the next message's data pointer minus its
own, and the last message's length is the string-section start (0x34 plus
the data length) minus its data pointer. -/
theorem c1_derived_lengths (decompress : List Nat → Option (List Nat))
    (msgDecode : List Nat → List Char) (stopTok : List Char)
    (compress : Nat) (data : List Nat)
    (hmagic : take4 data 0 = magic)
    (hcount : 1 ≤ message_count data) :
    ∃ msgs,
      (decode_1LMG decompress msgDecode stopTok compress data).2 =
        some msgs ∧
      msgs.length = message_count data ∧
      (∀ i mi, i + 1 < message_count data → msgs[i]? = some mi →
        mi.length = (pointerAt data (i + 1) : Int) - pointerAt data i) ∧
      (∀ ml, msgs[message_count data - 1]? = some ml →
        ml.length = (string_position data : Int) -
          pointerAt data (message_count data - 1)) := by
  have hdec : decode_1LMG decompress msgDecode stopTok compress data =
      parse1LMG msgDecode stopTok data := by
    simp [decode_1LMG, hmagic]
  obtain ⟨msgs, hsnd, hlen, hidx⟩ :=
    parse1LMG_lengths msgDecode stopTok data (by omega)
  refine ⟨msgs, by rw [hdec]; exact hsnd, hlen, ?_, ?_⟩
  · intro i mi hi hget
    have h := hidx i mi hget
    rwa [lengthAt, if_pos hi] at h
  · intro ml hget
    have h := hidx _ ml hget
    have hlt : ¬ (message_count data - 1 + 1 < message_count data) := by
      omega
    rwa [lengthAt, if_neg hlt] at h

/-- C1 witness: the spec's pointer-table example — pointers `0x34`,
`0x34+10`, `0x34+10+5` with string-section start `0x34+10+5+7` derive the
lengths 10, 5, 7. -/
theorem c1_derived_lengths_witness :
    (∃ msgs, (decode_1LMG dec0 md0 tok0 2 exC1).2 = some msgs ∧
      msgs.length = message_count exC1 ∧
      (∀ i mi, i + 1 < message_count exC1 → msgs[i]? = some mi →
        mi.length = (pointerAt exC1 (i + 1) : Int) - pointerAt exC1 i) ∧
      (∀ ml, msgs[message_count exC1 - 1]? = some ml →
        ml.length = (string_position exC1 : Int) -
          pointerAt exC1 (message_count exC1 - 1))) ∧
    ((decode_1LMG dec0 md0 tok0 2 exC1).2.getD []).map DMsg.length =
      [10, 5, 7] :=
  ⟨c1_derived_lengths dec0 md0 tok0 2 exC1 (by decide) (by decide),
   by decide⟩

/-- C9: when the messages before `bad` all encode successfully and `bad`'s
encode returns the error string `e`, the container build propagates exactly
that first error, the return code is -3, and nothing is written to the
output path (the output component is `none`; the Python file is opened only
after the loop over every message). -/
theorem c9_first_error_no_output (lps : List (List Nat × List Nat))
    (bad : EMsg) (post : List EMsg) (e : List Char)
    (he : bad.payload = Except.error e) :
    buildContainerE (okMsgs lps ++ bad :: post) = Except.error e ∧
    encodeContainer (okMsgs lps ++ bad :: post) = (-3, none) := by
  have hloop : ∀ st : BuildState,
      buildLoop (okMsgs lps ++ bad :: post) st = Except.error e := by
    intro st
    rw [buildLoop_append]
    cases st with
    | mk t d l =>
      rw [buildLoop_okMsgs]
      simp only [buildLoop, he]
  exact ⟨by simp only [buildContainerE, hloop],
    by simp only [encodeContainer, buildContainerE, hloop]⟩

/-- C9 witness: one good message followed by one failing message. -/
theorem c9_first_error_no_output_witness :
    buildContainerE (okMsgs [([65], [1])] ++
      [{ label := [66], payload := Except.error ['x'] }]) =
      Except.error ['x'] ∧
    encodeContainer (okMsgs [([65], [1])] ++
      [{ label := [66], payload := Except.error ['x'] }]) = (-3, none) :=
  c9_first_error_no_output [([65], [1])]
    { label := [66], payload := Except.error ['x'] } [] ['x'] rfl

/-- C7: when the split on the `===` separator lines yields an odd number of
label/text segments, encode fails with -1 and writes no output; with an
even count it proceeds to build the container from the consecutive
(label, text) pairs. -/
theorem c7_odd_segments (strEncode : List Char → List Nat)
    (msgEncode : List Char → Except (List Char) (List Nat))
    (text : List Char) :
    (((splitSep text).drop 1).length % 2 = 1 →
      encode_1LMG strEncode msgEncode text = (-1, none)) ∧
    (((splitSep text).drop 1).length % 2 = 0 →
      encode_1LMG strEncode msgEncode text =
        encodeContainer
          ((pairUp (cutSegments ((splitSep text).drop 1))).map
            (fun lt => mkMessage strEncode msgEncode lt.1 lt.2))) := by
  constructor
  · intro h
    have hne : ((splitSep text).drop 1).length % 2 ≠ 0 := by omega
    simp only [encode_1LMG]
    rw [if_pos hne]
  · intro h
    have hz : ¬ ((splitSep text).drop 1).length % 2 ≠ 0 := by omega
    simp only [encode_1LMG]
    rw [if_neg hz]

/-- C7 witness: a text with one segment after the preamble fails with
`(-1, none)`; the empty text has zero segments and proceeds to the build
with no messages. -/
theorem c7_odd_segments_witness :
    encode_1LMG se0 me0 ['a', '=', '=', '=', '\n', 'b'] = (-1, none) ∧
    encode_1LMG se0 me0 [] = encodeContainer [] :=
  ⟨(c7_odd_segments se0 me0 ['a', '=', '=', '=', '\n', 'b']).1 (by decide),
   (c7_odd_segments se0 me0 []).2 (by decide)⟩

/-- C5: with `string_length = 4` and a last message whose decoded text ends
in the stop marker followed by the literal `'0'`, exactly that one trailing
`'0'` is stripped; with `string_length ≠ 4`, or when the last message does
not end in stop marker followed by `'0'`, the messages are unchanged. -/
theorem c5_strip_trailing_pad (tok : List Char) (sl : Nat)
    (msgs pre : List DMsg) (last : DMsg) (t : List Char) :
    (sl = 4 → msgs = pre ++ [last] → last.decoded = t ++ (tok ++ ['0']) →
      stripTrailingPad tok sl msgs =
        pre ++ [{ last with decoded := t ++ tok }]) ∧
    (sl ≠ 4 → stripTrailingPad tok sl msgs = msgs) ∧
    (sl = 4 → msgs = pre ++ [last] →
      ¬ List.IsSuffix (tok ++ ['0']) last.decoded →
      stripTrailingPad tok sl msgs = msgs) := by
  refine ⟨fun h4 hm hd => ?_, fun hne => ?_, fun h4 hm hsuf => ?_⟩
  · subst h4; subst hm
    have hlc : lastChars last.decoded (1 + tok.length) = tok ++ ['0'] := by
      rw [hd]
      unfold lastChars
      have hl : (t ++ (tok ++ ['0'])).length - (1 + tok.length) =
          t.length := by
        simp only [List.length_append, List.length_cons, List.length_nil]
        omega
      rw [hl, List.drop_left]
    simp only [stripTrailingPad, List.getLast?_concat, hlc, if_true,
      ite_true, List.dropLast_concat, if_pos rfl]
    rw [hd, ← List.append_assoc, List.dropLast_concat]
  · simp [stripTrailingPad, hne]
  · subst h4; subst hm
    have hlc : ¬ lastChars last.decoded (1 + tok.length) = tok ++ ['0'] := by
      intro hc
      exact hsuf (hc ▸ List.drop_suffix _ _)
    simp [stripTrailingPad, List.getLast?_concat, hlc]

/-- C5 witness: the spec's example, a last message decoding to
`hello[STOP]0` with `string_length = 4`, which becomes `hello[STOP]`. -/
theorem c5_strip_trailing_pad_witness :
    stripTrailingPad tok0 4
      [⟨0, 0, 0, [],
        ['h', 'e', 'l', 'l', 'o', '[', 'S', 'T', 'O', 'P', ']', '0']⟩] =
      [⟨0, 0, 0, [],
        ['h', 'e', 'l', 'l', 'o', '[', 'S', 'T', 'O', 'P', ']']⟩] :=
  (c5_strip_trailing_pad tok0 4
    [⟨0, 0, 0, [],
      ['h', 'e', 'l', 'l', 'o', '[', 'S', 'T', 'O', 'P', ']', '0']⟩] []
    ⟨0, 0, 0, [],
      ['h', 'e', 'l', 'l', 'o', '[', 'S', 'T', 'O', 'P', ']', '0']⟩
    ['h', 'e', 'l', 'l', 'o']).1 rfl rfl rfl

theorem read32_append_len (l1 l2 : List Nat) :
    read32 (l1 ++ l2) l1.length = read32 l2 0 := by
  have h := read32_append_right l1 l2 0
  rwa [Nat.add_zero] at h

theorem take4_strings (a b c : Nat) (r1 r3 r4 : List Nat) :
    take4 (buildHeader a b c ++ r1 ++ stringsSection ++ r3 ++ r4)
      (0x34 + r1.length) = stringsSection := by
  have hsplit : buildHeader a b c ++ r1 ++ stringsSection ++ r3 ++ r4 =
      (buildHeader a b c ++ r1) ++ (stringsSection ++ (r3 ++ r4)) := by
    simp [List.append_assoc]
  have hlen : (buildHeader a b c ++ r1).length = 0x34 + r1.length := by
    simp [buildHeader_length]
  unfold take4
  rw [hsplit, ← hlen, List.drop_left]
  rfl

theorem read32_count (a b c k : Nat) (r1 t r4 : List Nat) :
    read32 (buildHeader a b c ++ r1 ++ stringsSection ++
        (pack32 k ++ t) ++ r4) (0x34 + r1.length + 4) =
      k % 4294967296 := by
  have hsplit : buildHeader a b c ++ r1 ++ stringsSection ++
      (pack32 k ++ t) ++ r4 =
      (buildHeader a b c ++ r1 ++ stringsSection) ++
        (pack32 k ++ (t ++ r4)) := by
    simp [List.append_assoc]
  have hlen : (buildHeader a b c ++ r1 ++ stringsSection).length =
      0x34 + r1.length + 4 := by
    simp [buildHeader_length, stringsSection]
    omega
  rw [hsplit, ← hlen, read32_append_len, read32_pack32]

theorem specContainer_header (lps : List (List Nat × List Nat)) :
    take4 (specContainer lps) 0 = magic ∧
    data_length (specContainer lps) =
      (pad4 ((lps.map (fun lp => lp.2)).flatten)).length % 4294967296 ∧
    string_length (specContainer lps) = 4 ∧
    take4 (specContainer lps)
      (0x34 + (pad4 ((lps.map (fun lp => lp.2)).flatten)).length) =
      stringsSection := by
  refine ⟨?_, ?_, ?_, ?_⟩
  · simp only [specContainer]
    exact take4_out_0 _ _ _ _ _ _ _
  · simp only [specContainer, data_length]
    exact read32_out_8 _ _ _ _ _ _ _
  · simp only [specContainer, string_length]
    rw [read32_out_12]
  · simp only [specContainer]
    exact take4_strings _ _ _ _ _ _

theorem specContainer_count (lps : List (List Nat × List Nat))
    (hdata : (pad4 ((lps.map (fun lp => lp.2)).flatten)).length <
      4294967296) :
    message_count (specContainer lps) = lps.length % 4294967296 := by
  unfold message_count pointers_position string_position
  rw [(specContainer_header lps).2.1, (specContainer_header lps).2.2.1,
    Nat.mod_eq_of_lt hdata]
  simp only [specContainer]
  exact read32_count _ _ _ _ _ _ _

/-- C8: a successful container build yields exactly the concatenation of
the 52-byte header, the 4-byte-padded data buffer (the payloads in order),
the 4-byte placeholder string section, the pointer table (message count
then, per message, the label-buffer offset before its label append and the
data-buffer offset before its payload append plus 0x34), and the
4-byte-padded label buffer; the header's combined table-length field is
`4 + message_count*8 + label_buffer_length`. -/
theorem c8_encode_layout (lps : List (List Nat × List Nat))
    (hbound : 4 + 8 * lps.length +
      (pad4 ([42, 0] ++ (lps.map (fun lp => lp.1 ++ [0])).flatten)).length <
        4294967296) :
    buildContainerE (okMsgs lps) = Except.ok (specContainer lps) ∧
    read32 (specContainer lps) 16 =
      4 + 8 * lps.length +
        (pad4 ([42, 0] ++
          (lps.map (fun lp => lp.1 ++ [0])).flatten)).length := by
  refine ⟨buildContainerE_okMsgs lps, ?_⟩
  have h16 : read32 (specContainer lps) 16 =
      ((pack32 lps.length ++ specTable 2 0 lps).length +
        (pad4 ([42, 0] ++
          (lps.map (fun lp => lp.1 ++ [0])).flatten)).length) %
        4294967296 := by
    simp only [specContainer]
    exact read32_out_16 _ _ _ _ _ _ _
  have hlen : (pack32 lps.length ++ specTable 2 0 lps).length =
      4 + 8 * lps.length := by
    simp [List.length_append, pack32, specTable_len]
    omega
  rw [h16, hlen]
  omega

/-- C8 witness at the concrete two-message input. -/
theorem c8_encode_layout_witness :
    buildContainerE (okMsgs exLps) = Except.ok (specContainer exLps) ∧
    read32 (specContainer exLps) 16 =
      4 + 8 * exLps.length +
        (pad4 ([42, 0] ++
          (exLps.map (fun lp => lp.1 ++ [0])).flatten)).length :=
  c8_encode_layout exLps (by decide)

/-- C10 (corrected): an encoder output need not decode along the success
path — encoding an empty text yields a container with zero messages, and
decoding it returns the empty-resource code -2, not 0. -/
theorem c10_zero_message_output :
    (encode_1LMG se0 me0 []).1 = 0 ∧
    (decode_1LMG dec0 md0 tok0 2 ((encode_1LMG se0 me0 []).2.getD [])).1 =
      -2 ∧
    ((-2 : Int) ≠ 0) :=
  ⟨by decide, by decide, by decide⟩

/-- C10 (amended): every successfully encoded container carries the fixed
4-byte placeholder string section (`'*'` then three zero bytes) and a
string_length header field of 4; decoding an encoder output with at least
one message takes the `string_length == 4` path and returns 0 with a
message list written, while an encoder output with zero messages fails
with the empty-resource error -2. -/
theorem c10_encoder_outputs (decompress : List Nat → Option (List Nat))
    (msgDecode : List Nat → List Char) (stopTok : List Char)
    (compress : Nat) (lps : List (List Nat × List Nat))
    (hdata : (pad4 ((lps.map (fun lp => lp.2)).flatten)).length <
      4294967296)
    (hn : lps.length < 4294967296) :
    buildContainerE (okMsgs lps) = Except.ok (specContainer lps) ∧
    take4 (specContainer lps)
      (0x34 + (pad4 ((lps.map (fun lp => lp.2)).flatten)).length) =
      stringsSection ∧
    string_length (specContainer lps) = 4 ∧
    (lps ≠ [] →
      (decode_1LMG decompress msgDecode stopTok compress
        (specContainer lps)).1 = 0 ∧
      ∃ msgs, (decode_1LMG decompress msgDecode stopTok compress
        (specContainer lps)).2 = some msgs) ∧
    (lps = [] →
      decode_1LMG decompress msgDecode stopTok compress
        (specContainer lps) = (-2, none)) := by
  have hhdr := specContainer_header lps
  have hcnt := specContainer_count lps hdata
  have hdec : decode_1LMG decompress msgDecode stopTok compress
      (specContainer lps) = parse1LMG msgDecode stopTok
      (specContainer lps) := by
    simp [decode_1LMG, hhdr.1]
  refine ⟨buildContainerE_okMsgs lps, hhdr.2.2.2, hhdr.2.2.1,
    fun hne => ?_, fun hz => ?_⟩
  · have hc0 : message_count (specContainer lps) ≠ 0 := by
      rw [hcnt, Nat.mod_eq_of_lt hn]
      simpa using hne
    constructor
    · rw [hdec]
      simp only [parse1LMG]
      rw [if_neg hc0]
      simp [hhdr.2.2.1]
    · rw [hdec]
      simp only [parse1LMG]
      rw [if_neg hc0]
      exact ⟨_, rfl⟩
  · subst hz
    have hc0 : message_count
        (specContainer ([] : List (List Nat × List Nat))) = 0 := by
      rw [hcnt]
      rfl
    rw [hdec]
    simp [parse1LMG, hc0]

/-- C10 (amended) witness at the concrete two-message input. -/
theorem c10_encoder_outputs_witness :
    buildContainerE (okMsgs exLps) = Except.ok (specContainer exLps) ∧
    (decode_1LMG dec0 md0 tok0 2 (specContainer exLps)).1 = 0 :=
  ⟨(c10_encoder_outputs dec0 md0 tok0 2 exLps (by decide) (by decide)).1,
   ((c10_encoder_outputs dec0 md0 tok0 2 exLps (by decide)
      (by decide)).2.2.2.1 (by decide)).1⟩

end GhostTripper
